import Mathlib

/-!
Verification of the SpeakMCP CLI streaming chat session client
(`apps/cli/src/sse.rs`, `apps/cli/src/api.rs`, `apps/cli/src/main.rs`).

Shallow embedding conventions:
* JSON values produced by the external `serde_json` text parser are modelled
  by the inductive `Json`; the text-to-JSON step of `serde_json::from_str`
  is an abstract parameter `jp : String → Option Json` (the library is an
  external collaborator; `none` models a text-level parse error).  The
  shape-directed deserialization of each `#[derive(Deserialize)]` struct is
  modelled concretely, following serde semantics: required fields error
  when missing or ill-typed, `Option` fields default to `none` when missing
  or `null`, unknown fields are ignored, `#[serde(default)]` on a
  `serde_json::Value` field defaults to JSON null.
* Rust `String` data is carried as Lean `String`; Rust's byte-oriented
  `len()` and `[n..]` slicing are modelled through `strBytes`, the UTF-8
  byte sequence of a string, with `List.length` and `List.drop`.
* Rust `str::trim` is modelled by `rustTrim` (drop whitespace characters
  from both ends).
* The CLI's terminal presentation (the unconditional trailing `println!()`
  after a done event, colors, and stderr diagnostics such as the
  `conversation_id:` line) is presentation-layer and out of scope; the
  session model records the typed incremental text units written to stdout
  (`stdoutChunks`) and the tool-call side-channel notices (`notices`)
  separately, exactly as `send_message` separates `print!` from
  `eprintln!`.
-/

/-- JSON value model for `serde_json::Value`. -/
inductive Json where
  | null
  | bool (b : Bool)
  | num (n : Int)
  | str (s : String)
  | arr (elems : List Json)
  | obj (fields : List (String × Json))

/-- Model of Rust `str::trim`: remove whitespace characters from both ends. -/
def rustTrim (s : String) : String :=
  String.mk (((s.data.dropWhile Char.isWhitespace).reverse.dropWhile Char.isWhitespace).reverse)

/-- UTF-8 encoding of one character (standard scalar-value encoding). -/
def charUtf8 (c : Char) : List Nat :=
  let n := c.toNat
  if n < 128 then [n]
  else if n < 2048 then [192 + n / 64, 128 + n % 64]
  else if n < 65536 then [224 + n / 4096, 128 + (n / 64) % 64, 128 + n % 64]
  else [240 + n / 262144, 128 + (n / 4096) % 64, 128 + (n / 64) % 64, 128 + n % 64]

/-- The UTF-8 bytes of a string: Rust `String` stores exactly these bytes,
`len()` is their count and `[n..]` drops the first `n` of them. -/
def strBytes (s : String) : List Nat := (s.data.map charUtf8).flatten

/-- Field access in a parsed JSON object (`serde_json` maps have unique keys). -/
def Json.getField (j : Json) (k : String) : Option Json :=
  match j with
  | .obj fields => fields.lookup k
  | _ => none

/-- Deserialize a JSON string (serde `String`). -/
def Json.getStr (j : Json) : Option String :=
  match j with
  | .str s => some s
  | _ => none

/-- Deserialize a JSON boolean (serde `bool`). -/
def Json.getBool (j : Json) : Option Bool :=
  match j with
  | .bool b => some b
  | _ => none

/-- Deserialize a JSON integer as Rust `i32` (range-checked). -/
def Json.getI32 (j : Json) : Option Int :=
  match j with
  | .num n => if -2147483648 ≤ n ∧ n < 2147483648 then some n else none
  | _ => none

/-- Deserialize a JSON integer as Rust `u64` (range-checked). -/
def Json.getU64 (j : Json) : Option Nat :=
  match j with
  | .num n => if 0 ≤ n ∧ n < 18446744073709551616 then some n.toNat else none
  | _ => none

/-- A required struct field: missing or ill-shaped input is a serde error. -/
def reqField (deser : Json → Option α) (j : Json) (k : String) : Option α :=
  (j.getField k).bind deser

/-- An `Option<T>` struct field: missing or `null` becomes `none`; a present
non-null value must deserialize, else serde errors. -/
def optField (deser : Json → Option α) (j : Json) (k : String) : Option (Option α) :=
  match j.getField k with
  | none => some none
  | some .null => some none
  | some v => (deser v).map some

/-- Deserialize a JSON array elementwise (serde `Vec<T>`). -/
def Json.getArr (deser : Json → Option α) (j : Json) : Option (List α) :=
  match j with
  | .arr elems => deserListAux deser elems
  | _ => none
where
  deserListAux (deser : Json → Option α) : List Json → Option (List α)
    | [] => some []
    | v :: vs =>
      match deser v with
      | none => none
      | some a => (deserListAux deser vs).map (a :: ·)

/-- `api.rs` `ToolCall`: `name`, `#[serde(default)] arguments: serde_json::Value`. -/
structure ToolCall where
  name : String
  arguments : Json

/-- `api.rs` `ToolResult`: `success`, `content`, optional `error`. -/
structure ToolResult where
  success : Bool
  content : String
  error : Option String

/-- `api.rs` `ConversationMessage` (field renames `toolCalls`/`toolResults`). -/
structure ConversationMessage where
  role : String
  content : String
  timestamp : Option Nat
  tool_calls : Option (List ToolCall)
  tool_results : Option (List ToolResult)

/-- serde deserializer for `ToolCall`. -/
def ToolCall.deser (j : Json) : Option ToolCall :=
  match j with
  | .obj _ => do
    let name ← reqField Json.getStr j "name"
    some ⟨name, (j.getField "arguments").getD Json.null⟩
  | _ => none

/-- serde deserializer for `ToolResult`. -/
def ToolResult.deser (j : Json) : Option ToolResult :=
  match j with
  | .obj _ => do
    let success ← reqField Json.getBool j "success"
    let content ← reqField Json.getStr j "content"
    let error ← optField Json.getStr j "error"
    some ⟨success, content, error⟩
  | _ => none

/-- serde deserializer for `ConversationMessage`. -/
def ConversationMessage.deser (j : Json) : Option ConversationMessage :=
  match j with
  | .obj _ => do
    let role ← reqField Json.getStr j "role"
    let content ← reqField Json.getStr j "content"
    let timestamp ← optField Json.getU64 j "timestamp"
    let tool_calls ← optField (Json.getArr ToolCall.deser) j "toolCalls"
    let tool_results ← optField (Json.getArr ToolResult.deser) j "toolResults"
    some ⟨role, content, timestamp, tool_calls, tool_results⟩
  | _ => none

/-- `sse.rs` `StreamingContent` (camelCase wire names). -/
structure StreamingContent where
  text : String
  is_streaming : Bool

/-- `sse.rs` `ToolCallInfo` (camelCase wire names). -/
structure ToolCallInfo where
  name : String
  arguments : Json
  server_name : Option String

/-- `sse.rs` `ToolResultInfo` (camelCase wire names). -/
structure ToolResultInfo where
  success : Bool
  content : String
  error : Option String

/-- `sse.rs` `AgentProgressStep` (camelCase wire names; `type` renamed). -/
structure AgentProgressStep where
  id : String
  step_type : String
  title : String
  status : String
  tool_call : Option ToolCallInfo
  tool_result : Option ToolResultInfo
  llm_content : Option String

/-- `sse.rs` `AgentProgressUpdate` (camelCase wire names). -/
structure AgentProgressUpdate where
  session_id : String
  conversation_id : Option String
  conversation_title : Option String
  current_iteration : Int
  max_iterations : Int
  steps : List AgentProgressStep
  is_complete : Bool
  is_snoozed : Option Bool
  final_content : Option String
  streaming_content : Option StreamingContent
  conversation_history : Option (List ConversationMessage)

/-- `sse.rs` `DoneEvent`.  NOTE: this struct has no
`serde(rename_all = "camelCase")` attribute in the source, so its wire
field names are the snake_case Rust field names. -/
structure DoneEvent where
  content : String
  conversation_id : Option String
  conversation_history : Option (List ConversationMessage)
  model : Option String

/-- `sse.rs` `ErrorEvent`. -/
structure ErrorEvent where
  message : String

/-- `sse.rs` `SseEvent`. -/
inductive SseEvent where
  | Progress (update : AgentProgressUpdate)
  | Done (done : DoneEvent)
  | Error (err : ErrorEvent)
  | Unknown (raw : String)

/-- `sse.rs` `SseEnvelope`: `{ type, data }`. -/
structure SseEnvelope where
  event_type : String
  data : Json

/-- serde deserializer for `StreamingContent`. -/
def StreamingContent.deser (j : Json) : Option StreamingContent :=
  match j with
  | .obj _ => do
    let text ← reqField Json.getStr j "text"
    let is_streaming ← reqField Json.getBool j "isStreaming"
    some ⟨text, is_streaming⟩
  | _ => none

/-- serde deserializer for `ToolCallInfo`. -/
def ToolCallInfo.deser (j : Json) : Option ToolCallInfo :=
  match j with
  | .obj _ => do
    let name ← reqField Json.getStr j "name"
    let server_name ← optField Json.getStr j "serverName"
    some ⟨name, (j.getField "arguments").getD Json.null, server_name⟩
  | _ => none

/-- serde deserializer for `ToolResultInfo`. -/
def ToolResultInfo.deser (j : Json) : Option ToolResultInfo :=
  match j with
  | .obj _ => do
    let success ← reqField Json.getBool j "success"
    let content ← reqField Json.getStr j "content"
    let error ← optField Json.getStr j "error"
    some ⟨success, content, error⟩
  | _ => none

/-- serde deserializer for `AgentProgressStep`. -/
def AgentProgressStep.deser (j : Json) : Option AgentProgressStep :=
  match j with
  | .obj _ => do
    let id ← reqField Json.getStr j "id"
    let step_type ← reqField Json.getStr j "type"
    let title ← reqField Json.getStr j "title"
    let status ← reqField Json.getStr j "status"
    let tool_call ← optField ToolCallInfo.deser j "toolCall"
    let tool_result ← optField ToolResultInfo.deser j "toolResult"
    let llm_content ← optField Json.getStr j "llmContent"
    some ⟨id, step_type, title, status, tool_call, tool_result, llm_content⟩
  | _ => none

/-- serde deserializer for `AgentProgressUpdate`. -/
def AgentProgressUpdate.deser (j : Json) : Option AgentProgressUpdate :=
  match j with
  | .obj _ => do
    let session_id ← reqField Json.getStr j "sessionId"
    let conversation_id ← optField Json.getStr j "conversationId"
    let conversation_title ← optField Json.getStr j "conversationTitle"
    let current_iteration ← reqField Json.getI32 j "currentIteration"
    let max_iterations ← reqField Json.getI32 j "maxIterations"
    let steps ← reqField (Json.getArr AgentProgressStep.deser) j "steps"
    let is_complete ← reqField Json.getBool j "isComplete"
    let is_snoozed ← optField Json.getBool j "isSnoozed"
    let final_content ← optField Json.getStr j "finalContent"
    let streaming_content ← optField StreamingContent.deser j "streamingContent"
    let conversation_history ← optField (Json.getArr ConversationMessage.deser) j "conversationHistory"
    some ⟨session_id, conversation_id, conversation_title, current_iteration,
          max_iterations, steps, is_complete, is_snoozed, final_content,
          streaming_content, conversation_history⟩
  | _ => none

/-- serde deserializer for `DoneEvent` — snake_case names, per the source
struct which carries no rename attribute. -/
def DoneEvent.deser (j : Json) : Option DoneEvent :=
  match j with
  | .obj _ => do
    let content ← reqField Json.getStr j "content"
    let conversation_id ← optField Json.getStr j "conversation_id"
    let conversation_history ← optField (Json.getArr ConversationMessage.deser) j "conversation_history"
    let model ← optField Json.getStr j "model"
    some ⟨content, conversation_id, conversation_history, model⟩
  | _ => none

/-- serde deserializer for `ErrorEvent`. -/
def ErrorEvent.deser (j : Json) : Option ErrorEvent :=
  match j with
  | .obj _ => do
    let message ← reqField Json.getStr j "message"
    some ⟨message⟩
  | _ => none

/-- serde deserializer for the `SseEnvelope`: a JSON object with a string
`type` field and an arbitrary `data` field, both required. -/
def SseEnvelope.deser (j : Json) : Option SseEnvelope :=
  match j with
  | .obj _ => do
    let event_type ← reqField Json.getStr j "type"
    let data ← j.getField "data"
    some ⟨event_type, data⟩
  | _ => none

/-- `sse.rs` `parse_sse_event`, with the external `serde_json` text parser
abstracted as `jp`.  Mirrors the source: trim; empty or `[DONE]` yields no
event; then envelope parse with `Unknown` fallback; then a per-type payload
parse, each with `Unknown` fallback; unrecognized types are `Unknown`. -/
def parse_sse_event (jp : String → Option Json) (data : String) : Option SseEvent :=
  let d := rustTrim data
  if d.isEmpty || d == "[DONE]" then none
  else
    match (jp d).bind SseEnvelope.deser with
    | none => some (.Unknown d)
    | some env =>
      match env.event_type with
      | "progress" =>
        match AgentProgressUpdate.deser env.data with
        | some u => some (.Progress u)
        | none => some (.Unknown d)
      | "done" =>
        match DoneEvent.deser env.data with
        | some dn => some (.Done dn)
        | none => some (.Unknown d)
      | "error" =>
        match ErrorEvent.deser env.data with
        | some e => some (.Error e)
        | none => some (.Unknown d)
      | _ => some (.Unknown d)

/-- `api.rs` `ChatResponse` (the driver's final result). -/
structure ChatResponse where
  content : String
  conversation_id : Option String
  conversation_history : Option (List ConversationMessage)
  queued : Option Bool

/-- The `ChatResponse` `chat_streaming` builds from a `Done` event. -/
def chatResponseOfDone (d : DoneEvent) : ChatResponse :=
  ⟨d.content, d.conversation_id, d.conversation_history, none⟩

/-- The three distinct failure returns of `chat_streaming`: the
`Server error: {msg}` branch on an `Error` event, the
`SSE stream error: {detail}` branch on a transport failure, and the
`Stream ended without receiving a done event` branch when the event source
is exhausted with no final response. -/
inductive SessionError where
  | Remote (message : String)
  | Transport (detail : String)
  | IncompleteStream

/-- One item delivered by the `reqwest_eventsource::EventSource` stream:
`Ok(Event::Open)`, `Ok(Event::Message(..))` carrying one SSE data payload,
or `Err(..)` reporting a transport-level failure. -/
inductive Frame where
  | opened
  | message (data : String)
  | transportErr (detail : String)

/-- What a run of `chat_streaming` produces: the returned result, the final
state of the caller-supplied `on_event` callback, whether `es.close()` was
called, and the frames left unread when the loop stopped. -/
structure StreamOutcome (σ : Type) where
  result : Except SessionError ChatResponse
  cbState : σ
  closed : Bool
  remaining : List Frame

/-- The `while let Some(event) = es.next().await` loop of
`ApiClient::chat_streaming`, over an explicit frame list.  `Open` frames do
nothing; a message is decoded by `parse_sse_event` (a `None` decode is
skipped); a decoded event first updates `final_response` (on `Done`), is
then handed to the callback, and then decides termination: `Done` closes
the source, stops reading and returns `final_response` (`ok_or_else` with
the incomplete-stream error), `Error` closes the source and returns the
remote failure; a transport error closes the source and returns the
transport failure; an exhausted source falls through to the same
`ok_or_else`. -/
def chatStreamingGo (jp : String → Option Json) (onEvent : σ → SseEvent → σ) :
    List Frame → Option ChatResponse → σ → StreamOutcome σ
  | [], finalResponse, s =>
    ⟨match finalResponse with
     | some r => .ok r
     | none => .error .IncompleteStream, s, false, []⟩
  | .opened :: rest, finalResponse, s => chatStreamingGo jp onEvent rest finalResponse s
  | .transportErr detail :: rest, _, s => ⟨.error (.Transport detail), s, true, rest⟩
  | .message data :: rest, finalResponse, s =>
    match parse_sse_event jp data with
    | none => chatStreamingGo jp onEvent rest finalResponse s
    | some ev =>
      let finalResponse' := match ev with
        | .Done done => some (chatResponseOfDone done)
        | _ => finalResponse
      let s' := onEvent s ev
      match ev with
      | .Done _ =>
        ⟨match finalResponse' with
         | some r => .ok r
         | none => .error .IncompleteStream, s', true, rest⟩
      | .Error err => ⟨.error (.Remote err.message), s', true, rest⟩
      | _ => chatStreamingGo jp onEvent rest finalResponse' s'

/-- Entry point of the loop: `final_response` starts as `None`. -/
def chat_streaming (jp : String → Option Json) (onEvent : σ → SseEvent → σ)
    (frames : List Frame) (s : σ) : StreamOutcome σ :=
  chatStreamingGo jp onEvent frames none s

/-- The per-turn state of the streaming branch of `send_message`:
`printed` is `last_streaming_text_len`, `stdoutChunks` the incremental
text units written with `print!` in order, `notices` the tool-call names
reported on the side channel. -/
structure SessState where
  printed : Nat
  stdoutChunks : List (List Nat)
  notices : List String

/-- The tool-call notices `send_message` prints for one progress event:
for each step whose status is running or complete and which carries a
tool call, the tool's name — gated by `config.show_tool_calls`. -/
def stepNotices (showTools : Bool) (steps : List AgentProgressStep) : List String :=
  if showTools then
    steps.filterMap fun st =>
      if st.status == "running" || st.status == "complete" then
        st.tool_call.map (fun tc => tc.name)
      else none
  else []

/-- The total projection of the `send_message` event callback closure:
`sessionOnEventP` below is the faithful model, whose slice may panic when
`printed` is not a char boundary of the new text; this total version
coincides with it whenever no slice runs or the slice start is a char
boundary (see `sessionOnEventP_agrees_with_total`), which covers every
state reachable under the protocol's prefix-growing streaming text.
On `Progress`: emit tool-call notices, then, when streaming content is
present with `is_streaming` set and its text has more bytes than
`printed`, write exactly the bytes beyond `printed` and advance `printed`
to the new byte length.  On `Done`: when the content has more bytes than
`printed`, write exactly the bytes beyond `printed` (the unconditional
trailing newline and the stderr `conversation_id` line are presentation).
`Error` is reported on stderr only and `Unknown` is ignored. -/
def sessionOnEvent (showTools : Bool) (s : SessState) (ev : SseEvent) : SessState :=
  match ev with
  | .Progress u =>
    let s := { s with notices := s.notices ++ stepNotices showTools u.steps }
    match u.streaming_content with
    | some sc =>
      if sc.is_streaming && decide (s.printed < (strBytes sc.text).length) then
        { s with
          stdoutChunks := s.stdoutChunks ++ [(strBytes sc.text).drop s.printed],
          printed := (strBytes sc.text).length }
      else s
    | none => s
  | .Done d =>
    if decide (s.printed < (strBytes d.content).length) then
      { s with stdoutChunks := s.stdoutChunks ++ [(strBytes d.content).drop s.printed] }
    else s
  | .Error _ => s
  | .Unknown _ => s

/-- Envelope-shaped JSON: `{ type, data }`. -/
def envJson (ty : String) (d : Json) : Json :=
  Json.obj [("type", Json.str ty), ("data", d)]

/-- A minimal well-formed progress payload whose streaming content carries
text `t` with `isStreaming` true and `isComplete` false. -/
def progressJson (t : String) : Json :=
  Json.obj [("sessionId", Json.str "s1"), ("currentIteration", Json.num 1),
            ("maxIterations", Json.num 10), ("steps", Json.arr []),
            ("isComplete", Json.bool false),
            ("streamingContent",
              Json.obj [("text", Json.str t), ("isStreaming", Json.bool true)])]

/-- The decoded form of `progressJson t`. -/
def progressUpdate (t : String) : AgentProgressUpdate :=
  ⟨"s1", none, none, 1, 10, [], false, none, none, some ⟨t, true⟩, none⟩

/-- Decode outcome, as the claim about malformed frames classifies it:
true when the envelope fails to parse, when the declared type is not one
of progress, done, error, or when the type-selected payload deserializer
fails on `data`. -/
def decodesToUnknownB (jp : String → Option Json) (d : String) : Bool :=
  match (jp d).bind SseEnvelope.deser with
  | none => true
  | some env =>
    match env.event_type with
    | "progress" => (AgentProgressUpdate.deser env.data).isNone
    | "done" => (DoneEvent.deser env.data).isNone
    | "error" => (ErrorEvent.deser env.data).isNone
    | _ => true

/-- Executable test that the first byte list is an initial segment of the
second. -/
def isPre : List Nat → List Nat → Bool
  | [], _ => true
  | _ :: _, [] => false
  | a :: as, b :: bs => (a == b) && isPre as bs

/-- Executable test that consecutive byte lists grow by extension only:
the order in which a streamed cumulative text is non-decreasing. -/
def growingChain : List (List Nat) → Bool
  | [] => true
  | [_] => true
  | a :: b :: rest => isPre a b && growingChain (b :: rest)

/-- True for frames the loop passes over without terminating: connection
open notifications and messages that decode to nothing, to `Progress` or
to `Unknown`. -/
def nonTerminalFrameB (jp : String → Option Json) : Frame → Bool
  | .opened => true
  | .transportErr _ => false
  | .message d =>
    match parse_sse_event jp d with
    | none => true
    | some (.Progress _) => true
    | some (.Unknown _) => true
    | some (.Done _) => false
    | some (.Error _) => false

/-- The events a frame list decodes to, in order (what reaches the
callback). -/
def decodedEvents (jp : String → Option Json) (frames : List Frame) : List SseEvent :=
  frames.filterMap fun f =>
    match f with
    | .message d => parse_sse_event jp d
    | _ => none

/-- A callback that records every event it receives, in arrival order. -/
def cbTrace : List SseEvent → SseEvent → List SseEvent := fun tr ev => tr ++ [ev]

/-- A done envelope whose data object uses the camelCase field names
`conversationId` and `conversationHistory`. -/
def camelDoneJson : Json :=
  envJson "done" (Json.obj
    [("content", Json.str "hi"), ("conversationId", Json.str "c123"),
     ("conversationHistory", Json.arr
        [Json.obj [("role", Json.str "user"), ("content", Json.str "hello")]])])

/-- The same done envelope with the snake_case field names the source's
`DoneEvent` struct actually declares. -/
def snakeDoneJson : Json :=
  envJson "done" (Json.obj
    [("content", Json.str "hi"), ("conversation_id", Json.str "c123"),
     ("conversation_history", Json.arr
        [Json.obj [("role", Json.str "user"), ("content", Json.str "hello")]])])

/-- The byte offsets at which a character starts in the UTF-8 encoding of
the listed characters, beginning at offset `i`, with the end offset
included — exactly the valid slice positions of a Rust `str`. -/
def boundariesFrom : Nat → List Char → List Nat
  | i, [] => [i]
  | i, c :: cs => i :: boundariesFrom (i + (charUtf8 c).length) cs

/-- Rust `str::is_char_boundary`: true at 0, at the total byte length, and
at the first byte of every character. -/
def isCharBoundary (s : String) (i : Nat) : Bool :=
  (boundariesFrom 0 s.data).contains i

/-- Rust `&s[i..]`: the bytes from offset `i`, or a panic (`none`) when
`i` is not a char boundary of `s`. -/
def rustSliceFrom (s : String) (i : Nat) : Option (List Nat) :=
  if isCharBoundary s i then some ((strBytes s).drop i) else none

/-- The faithful model of the `send_message` event callback closure:
as `sessionOnEvent`, but the slices at `main.rs:523` (progress) and
`main.rs:533` (done) go through `rustSliceFrom`, so the step is `none` —
a panic — when the printed cursor is not a char boundary of the sliced
text. -/
def sessionOnEventP (showTools : Bool) (s : SessState) (ev : SseEvent) :
    Option SessState :=
  match ev with
  | .Progress u =>
    let s := { s with notices := s.notices ++ stepNotices showTools u.steps }
    match u.streaming_content with
    | some sc =>
      if sc.is_streaming && decide (s.printed < (strBytes sc.text).length) then
        match rustSliceFrom sc.text s.printed with
        | some suffix =>
          some { s with
            stdoutChunks := s.stdoutChunks ++ [suffix],
            printed := (strBytes sc.text).length }
        | none => none
      else some s
    | none => some s
  | .Done d =>
    if decide (s.printed < (strBytes d.content).length) then
      match rustSliceFrom d.content s.printed with
      | some suffix => some { s with stdoutChunks := s.stdoutChunks ++ [suffix] }
      | none => none
    else some s
  | .Error _ => some s
  | .Unknown _ => some s

/-- The `chat_streaming` loop with a callback that may panic: a `none`
from the callback unwinds out of the loop (the process aborts before any
result is produced), modelled by a `none` overall outcome.  On `some` it
is exactly `chatStreamingGo`. -/
def chatStreamingGoP (jp : String → Option Json) (onEvent : σ → SseEvent → Option σ) :
    List Frame → Option ChatResponse → σ → Option (StreamOutcome σ)
  | [], finalResponse, s =>
    some ⟨match finalResponse with
          | some r => .ok r
          | none => .error .IncompleteStream, s, false, []⟩
  | .opened :: rest, finalResponse, s => chatStreamingGoP jp onEvent rest finalResponse s
  | .transportErr detail :: rest, _, s =>
    some ⟨.error (.Transport detail), s, true, rest⟩
  | .message data :: rest, finalResponse, s =>
    match parse_sse_event jp data with
    | none => chatStreamingGoP jp onEvent rest finalResponse s
    | some ev =>
      let finalResponse' := match ev with
        | .Done done => some (chatResponseOfDone done)
        | _ => finalResponse
      match onEvent s ev with
      | none => none
      | some s' =>
        match ev with
        | .Done _ =>
          some ⟨match finalResponse' with
                | some r => .ok r
                | none => .error .IncompleteStream, s', true, rest⟩
        | .Error err => some ⟨.error (.Remote err.message), s', true, rest⟩
        | _ => chatStreamingGoP jp onEvent rest finalResponse' s'

/-- Entry point of the panic-aware loop: `final_response` starts as
`None`. -/
def chat_streamingP (jp : String → Option Json) (onEvent : σ → SseEvent → Option σ)
    (frames : List Frame) (s : σ) : Option (StreamOutcome σ) :=
  chatStreamingGoP jp onEvent frames none s

/-- C9 (counterexample): decoding the raw input with surrounding blanks
produces an `Unknown` that carries the trimmed text, which differs from
the raw input passed to decode. -/
theorem C9_counterexample_unknown_is_trimmed :
    parse_sse_event (fun _ => none) " nope " = some (SseEvent.Unknown "nope") ∧
      "nope" ≠ " nope " := by
  constructor
  · rfl
  · decide

/-- C9 (amended): whenever decode returns an `Unknown` event, the string
it carries is the whitespace-trimmed raw input (hence equal to the raw
input exactly when that input has no surrounding whitespace). -/
theorem C9_unknown_carries_trimmed_input (jp : String → Option Json)
    (data s : String)
    (h : parse_sse_event jp data = some (SseEvent.Unknown s)) :
    s = rustTrim data := by
  unfold parse_sse_event at h
  dsimp only at h
  split at h
  · exact absurd h (by simp)
  · split at h
    · simp_all
    · split at h <;> first
        | (split at h <;> simp_all)
        | simp_all

/-- C9 witness: the amended theorem applied at a concrete input whose
hypothesis evaluates. -/
theorem C9_unknown_carries_trimmed_input_witness :
    ("zap" : String) = rustTrim "zap" :=
  C9_unknown_carries_trimmed_input (fun _ => none) "zap" "zap" rfl

/-- C4: every input that remains non-empty and distinct from the `[DONE]`
sentinel after trimming, and that fails the envelope parse, declares an
unrecognized type, or fails the payload parse selected by its type,
decodes to `Unknown` — never to a raised failure and never to a
`Progress`, `Done` or `Error` event. -/
theorem C4_malformed_input_decodes_to_Unknown (jp : String → Option Json)
    (data : String)
    (h1 : (rustTrim data).isEmpty = false)
    (h2 : (rustTrim data == "[DONE]") = false)
    (h3 : decodesToUnknownB jp (rustTrim data) = true) :
    parse_sse_event jp data = some (SseEvent.Unknown (rustTrim data)) := by
  unfold parse_sse_event
  unfold decodesToUnknownB at h3
  simp only [h1, h2, Bool.or_self, Bool.false_eq_true, if_false]
  split at h3
  · simp_all
  · split at h3 <;> simp_all

/-- C4 witness: a concrete malformed frame (envelope parse fails). -/
theorem C4_malformed_input_decodes_to_Unknown_witness :
    (rustTrim "oops").isEmpty = false ∧
      (rustTrim "oops" == "[DONE]") = false ∧
      decodesToUnknownB (fun _ => none) (rustTrim "oops") = true ∧
      parse_sse_event (fun _ => none) "oops" = some (SseEvent.Unknown (rustTrim "oops")) :=
  ⟨by decide, by decide, by decide,
    C4_malformed_input_decodes_to_Unknown (fun _ => none) "oops"
      (by decide) (by decide) (by decide)⟩

/-- C6: a `Progress` frame whose streaming text has no more bytes than the
printed cursor is a no-op for the text stream — nothing is emitted and the
cursor is unchanged (the model is a total function, so no panic is
possible); replaying any identical progress frame after it has been
applied produces no further text emission and leaves the cursor unchanged;
and the driver continues past any `Progress` frame. -/
theorem C6_stale_progress_frame_is_noop :
    (∀ (showTools : Bool) (s : SessState) (u : AgentProgressUpdate) (sc : StreamingContent),
      u.streaming_content = some sc →
      (strBytes sc.text).length ≤ s.printed →
      (sessionOnEvent showTools s (.Progress u)).stdoutChunks = s.stdoutChunks ∧
        (sessionOnEvent showTools s (.Progress u)).printed = s.printed) ∧
    (∀ (showTools : Bool) (s : SessState) (u : AgentProgressUpdate),
      (sessionOnEvent showTools (sessionOnEvent showTools s (.Progress u))
            (.Progress u)).stdoutChunks
          = (sessionOnEvent showTools s (.Progress u)).stdoutChunks ∧
        (sessionOnEvent showTools (sessionOnEvent showTools s (.Progress u))
            (.Progress u)).printed
          = (sessionOnEvent showTools s (.Progress u)).printed) ∧
    (∀ (σ : Type) (jp : String → Option Json) (onEvent : σ → SseEvent → σ)
        (d : String) (u : AgentProgressUpdate) (rest : List Frame)
        (fr : Option ChatResponse) (s : σ),
      parse_sse_event jp d = some (.Progress u) →
      chatStreamingGo jp onEvent (.message d :: rest) fr s
        = chatStreamingGo jp onEvent rest fr (onEvent s (.Progress u))) := by
  refine ⟨?_, ?_, ?_⟩
  · intro showTools s u sc hsc hle
    have hlt : ¬ s.printed < (strBytes sc.text).length := by omega
    simp [sessionOnEvent, hsc, hlt]
  · intro showTools s u
    cases hsc : u.streaming_content with
    | none => simp [sessionOnEvent, hsc]
    | some sc =>
      cases hstr : sc.is_streaming with
      | false => simp [sessionOnEvent, hsc, hstr]
      | true =>
        by_cases hlt : s.printed < (strBytes sc.text).length
        · simp [sessionOnEvent, hsc, hstr, hlt]
        · simp [sessionOnEvent, hsc, hstr, hlt]
  · intro σ jp onEvent d u rest fr s h
    simp [chatStreamingGo, h]

/-- C6 witness: a replayed frame (text `Hel`, cursor already at 3). -/
theorem C6_stale_progress_frame_is_noop_witness :
    (progressUpdate "Hel").streaming_content = some ⟨"Hel", true⟩ ∧
      (strBytes "Hel").length ≤ 3 ∧
      ((sessionOnEvent false ⟨3, [strBytes "Hel"], []⟩
            (.Progress (progressUpdate "Hel"))).stdoutChunks = [strBytes "Hel"] ∧
        (sessionOnEvent false ⟨3, [strBytes "Hel"], []⟩
            (.Progress (progressUpdate "Hel"))).printed = 3) :=
  ⟨rfl, by decide,
    C6_stale_progress_frame_is_noop.1 false ⟨3, [strBytes "Hel"], []⟩
      (progressUpdate "Hel") ⟨"Hel", true⟩ rfl (by decide)⟩

theorem isPre_iff (a : List Nat) : ∀ b, isPre a b = true ↔ ∃ t, a ++ t = b := by
  induction a with
  | nil => intro b; simp [isPre]
  | cons x xs ih =>
    intro b
    cases b with
    | nil => simp [isPre]
    | cons y ys =>
      simp only [isPre, Bool.and_eq_true, beq_iff_eq, ih]
      constructor
      · rintro ⟨hx, t, ht⟩
        exact ⟨t, by simp [hx, ht]⟩
      · rintro ⟨t, ht⟩
        injection ht with h1 h2
        exact ⟨h1, t, h2⟩

theorem isPre_trans {a b c : List Nat} (h1 : isPre a b = true)
    (h2 : isPre b c = true) : isPre a c = true := by
  rw [isPre_iff] at *
  obtain ⟨u, hu⟩ := h1
  obtain ⟨v, hv⟩ := h2
  exact ⟨u ++ v, by rw [← List.append_assoc, hu, hv]⟩

theorem isPre_refl (a : List Nat) : isPre a a = true := by
  rw [isPre_iff]; exact ⟨[], by simp⟩

theorem isPre_length_le {a b : List Nat} (h : isPre a b = true) :
    a.length ≤ b.length := by
  rw [isPre_iff] at h
  obtain ⟨t, ht⟩ := h
  subst ht
  simp

theorem isPre_eq_of_le {a b : List Nat} (h : isPre a b = true)
    (hle : b.length ≤ a.length) : a = b := by
  rw [isPre_iff] at h
  obtain ⟨t, ht⟩ := h
  subst ht
  simp at hle
  simp [hle]

theorem growingChain_cons {a b : List Nat} {l : List (List Nat)}
    (h : growingChain (a :: b :: l) = true) :
    isPre a b = true ∧ growingChain (b :: l) = true := by
  simpa [growingChain, Bool.and_eq_true] using h

theorem growingChain_head_last {l : List (List Nat)} :
    ∀ {a : List Nat}, growingChain (a :: l) = true →
      isPre a (l.getLastD a) = true := by
  induction l with
  | nil => intro a _; exact isPre_refl a
  | cons b l ih =>
    intro a h
    obtain ⟨h1, h2⟩ := growingChain_cons h
    rw [List.getLastD_cons]
    have h3 := ih h2
    exact isPre_trans h1 h3

theorem growingChain_cons_nil {l : List (List Nat)}
    (h : growingChain l = true) : growingChain ([] :: l) = true := by
  cases l with
  | nil => rfl
  | cons a l => simpa [growingChain, isPre] using h

theorem drop_telescope {a b c : List Nat} (h1 : isPre a b = true)
    (h2 : isPre b c = true) :
    b.drop a.length ++ c.drop b.length = c.drop a.length := by
  rw [isPre_iff] at h1 h2
  obtain ⟨u, hu⟩ := h1
  obtain ⟨v, hv⟩ := h2
  subst hu
  subst hv
  rw [List.drop_left, List.drop_left, List.append_assoc, List.drop_left]

theorem map_getLastD (texts : List String) :
    ∀ d : String, (texts.map strBytes).getLastD (strBytes d)
      = strBytes (texts.getLastD d) := by
  induction texts with
  | nil => intro d; rfl
  | cons t ts ih =>
    intro d
    simp only [List.map_cons, List.getLastD_cons]
    exact ih t

theorem c7_fold (showTools : Bool) :
    ∀ (texts : List String) (updates : List AgentProgressUpdate)
      (prev : List Nat) (s : SessState),
      updates.map (fun u => u.streaming_content)
          = texts.map (fun t => some ⟨t, true⟩) →
      growingChain (prev :: texts.map strBytes) = true →
      s.printed = prev.length →
      ((updates.map SseEvent.Progress).foldl
          (sessionOnEvent showTools) s).stdoutChunks.flatten
          = s.stdoutChunks.flatten
            ++ ((texts.map strBytes).getLastD prev).drop prev.length ∧
        ((updates.map SseEvent.Progress).foldl
          (sessionOnEvent showTools) s).printed
          = ((texts.map strBytes).getLastD prev).length := by
  intro texts
  induction texts with
  | nil =>
    intro updates prev s hmap hchain hp
    have hupd : updates = [] := by
      cases updates with
      | nil => rfl
      | cons u us => simp at hmap
    subst hupd
    simp [hp, List.drop_length]
  | cons t ts ih =>
    intro updates prev s hmap hchain hp
    cases updates with
    | nil => simp at hmap
    | cons u us =>
      simp only [List.map_cons, List.cons.injEq] at hmap
      obtain ⟨hu, hus⟩ := hmap
      simp only [List.map_cons] at hchain
      obtain ⟨hpre, hchain'⟩ := growingChain_cons hchain
      simp only [List.map_cons, List.foldl_cons, List.getLastD_cons]
      have hlast := growingChain_head_last hchain'
      by_cases hlt : s.printed < (strBytes t).length
      · have hsp : (sessionOnEvent showTools s (.Progress u)).printed
            = (strBytes t).length := by
          simp [sessionOnEvent, hu, hlt]
        have hsc : (sessionOnEvent showTools s (.Progress u)).stdoutChunks
            = s.stdoutChunks ++ [(strBytes t).drop s.printed] := by
          simp [sessionOnEvent, hu, hlt]
        obtain ⟨ih1, ih2⟩ := ih us (strBytes t)
          (sessionOnEvent showTools s (.Progress u)) hus hchain' hsp
        refine ⟨?_, ih2⟩
        rw [ih1, hsc]
        rw [List.flatten_append, hp]
        simp only [List.flatten_cons, List.flatten_nil, List.append_nil,
          List.append_assoc]
        rw [drop_telescope hpre hlast]
      · have heq : prev = strBytes t := by
          refine isPre_eq_of_le hpre ?_
          omega
        have hsp : (sessionOnEvent showTools s (.Progress u)).printed
            = (strBytes t).length := by
          simp [sessionOnEvent, hu, hlt, hp, ← heq]
        have hsc : (sessionOnEvent showTools s (.Progress u)).stdoutChunks
            = s.stdoutChunks := by
          simp [sessionOnEvent, hu, hlt]
        obtain ⟨ih1, ih2⟩ := ih us (strBytes t)
          (sessionOnEvent showTools s (.Progress u)) hus hchain' hsp
        refine ⟨?_, ih2⟩
        rw [ih1, hsc, heq]

/-- C7: for every finite sequence of `Progress` frames, each with
streaming content present and `is_streaming` true, whose cumulative texts
grow by extension (the spec's prefix-growing order on streamed text, its
sense of monotonically non-decreasing), the concatenation of all suffixes
the session emits, starting from a fresh state, is exactly the last
frame's streaming text. -/
theorem C7_monotone_progress_suffixes_concat_to_last (showTools : Bool)
    (texts : List String) (updates : List AgentProgressUpdate)
    (hmap : updates.map (fun u => u.streaming_content)
      = texts.map (fun t => some ⟨t, true⟩))
    (hchain : growingChain (texts.map strBytes) = true)
    (_hne : texts ≠ []) :
    ((updates.map SseEvent.Progress).foldl
        (sessionOnEvent showTools) ⟨0, [], []⟩).stdoutChunks.flatten
      = strBytes (texts.getLastD "") := by
  obtain ⟨h1, _⟩ := c7_fold showTools texts updates [] ⟨0, [], []⟩ hmap
    (growingChain_cons_nil hchain) rfl
  have hml := map_getLastD texts ""
  rw [show strBytes "" = ([] : List Nat) from rfl] at hml
  rw [h1, hml]
  simp

/-- C7 witness: the scenario texts `Hel`, `Hello`. -/
theorem C7_monotone_progress_suffixes_concat_to_last_witness :
    ([progressUpdate "Hel", progressUpdate "Hello"].map
        (fun u => u.streaming_content)
      = (["Hel", "Hello"] : List String).map (fun t => some ⟨t, true⟩)) ∧
      growingChain ((["Hel", "Hello"] : List String).map strBytes) = true ∧
      (["Hel", "Hello"] : List String) ≠ [] ∧
      (([progressUpdate "Hel", progressUpdate "Hello"].map SseEvent.Progress).foldl
          (sessionOnEvent false) ⟨0, [], []⟩).stdoutChunks.flatten
        = strBytes ((["Hel", "Hello"] : List String).getLastD "") :=
  ⟨rfl, by decide, by decide,
    C7_monotone_progress_suffixes_concat_to_last false ["Hel", "Hello"]
      [progressUpdate "Hel", progressUpdate "Hello"] rfl (by decide) (by decide)⟩

theorem go_nonterminal_trace (jp : String → Option Json) :
    ∀ (pre X : List Frame) (tr : List SseEvent),
      (∀ f ∈ pre, nonTerminalFrameB jp f = true) →
      chatStreamingGo jp cbTrace (pre ++ X) none tr
        = chatStreamingGo jp cbTrace X none (tr ++ decodedEvents jp pre) := by
  intro pre
  induction pre with
  | nil => intro X tr _; simp [decodedEvents]
  | cons f rest ih =>
    intro X tr h
    have hf := h f (by simp)
    have hrest : ∀ g ∈ rest, nonTerminalFrameB jp g = true :=
      fun g hg => h g (by simp [hg])
    cases f with
    | opened =>
      simpa [chatStreamingGo, decodedEvents] using ih X tr hrest
    | transportErr detail => simp [nonTerminalFrameB] at hf
    | message d =>
      cases hp : parse_sse_event jp d with
      | none =>
        have : decodedEvents jp (Frame.message d :: rest) = decodedEvents jp rest := by
          simp [decodedEvents, hp]
        rw [List.cons_append]
        simp only [chatStreamingGo, hp]
        rw [this]
        exact ih X tr hrest
      | some ev =>
        cases ev with
        | Progress u =>
          have hdec : decodedEvents jp (Frame.message d :: rest)
              = SseEvent.Progress u :: decodedEvents jp rest := by
            simp [decodedEvents, hp]
          rw [List.cons_append]
          simp only [chatStreamingGo, hp]
          rw [hdec, ih X (cbTrace tr (SseEvent.Progress u)) hrest]
          simp [cbTrace]
        | Unknown raw =>
          have hdec : decodedEvents jp (Frame.message d :: rest)
              = SseEvent.Unknown raw :: decodedEvents jp rest := by
            simp [decodedEvents, hp]
          rw [List.cons_append]
          simp only [chatStreamingGo, hp]
          rw [hdec, ih X (cbTrace tr (SseEvent.Unknown raw)) hrest]
          simp [cbTrace]
        | Done dn => simp [nonTerminalFrameB, hp] at hf
        | Error e => simp [nonTerminalFrameB, hp] at hf

/-- C5: when every frame of the source is non-terminal (connection-open
notifications, keep-alives that decode to nothing, progress or unknown
frames) and the source then ends, the driver returns the distinct
incomplete-stream error — not success and not a remote error. -/
theorem C5_exhausted_source_is_IncompleteStream (σ : Type)
    (jp : String → Option Json) (onEvent : σ → SseEvent → σ)
    (frames : List Frame) (s : σ) :
    (∀ f ∈ frames, nonTerminalFrameB jp f = true) →
    (chat_streaming jp onEvent frames s).result
      = Except.error SessionError.IncompleteStream := by
  unfold chat_streaming
  induction frames generalizing s with
  | nil => intro _; rfl
  | cons f rest ih =>
    intro h
    have hf := h f (by simp)
    have hrest : ∀ g ∈ rest, nonTerminalFrameB jp g = true :=
      fun g hg => h g (by simp [hg])
    cases f with
    | opened => simpa [chatStreamingGo] using ih s hrest
    | transportErr detail => simp [nonTerminalFrameB] at hf
    | message d =>
      cases hp : parse_sse_event jp d with
      | none =>
        simp only [chatStreamingGo, hp]
        exact ih s hrest
      | some ev =>
        cases ev with
        | Progress u =>
          simp only [chatStreamingGo, hp]
          exact ih _ hrest
        | Unknown raw =>
          simp only [chatStreamingGo, hp]
          exact ih _ hrest
        | Done dn => simp [nonTerminalFrameB, hp] at hf
        | Error e => simp [nonTerminalFrameB, hp] at hf

/-- C5 witness: scenario C — the source ends after one progress frame with
`isComplete` false and no done or error frame. -/
theorem C5_exhausted_source_is_IncompleteStream_witness :
    (∀ f ∈ [Frame.message "pframe"],
      nonTerminalFrameB (fun _ => some (envJson "progress" (progressJson "He"))) f = true) ∧
      (chat_streaming (fun _ => some (envJson "progress" (progressJson "He")))
          (sessionOnEvent false) [Frame.message "pframe"] ⟨0, [], []⟩).result
        = Except.error SessionError.IncompleteStream :=
  ⟨by decide,
    C5_exhausted_source_is_IncompleteStream SessState
      (fun _ => some (envJson "progress" (progressJson "He")))
      (sessionOnEvent false) [Frame.message "pframe"] ⟨0, [], []⟩ (by decide)⟩

/-- C3: when an `Error` event arrives before any `Done`, the driver closes
the frame source, returns the remote failure carrying exactly the server's
message (no final result), reads no further frames, and the callback has
been invoked for every decoded event up to and including the error, so
everything emitted before the error stays delivered. -/
theorem C3_error_stops_with_remote_failure (jp : String → Option Json)
    (pre : List Frame) (d : String) (e : ErrorEvent) (rest : List Frame)
    (hpre : ∀ f ∈ pre, nonTerminalFrameB jp f = true)
    (hd : parse_sse_event jp d = some (SseEvent.Error e)) :
    (chat_streaming jp cbTrace (pre ++ Frame.message d :: rest) []).result
        = Except.error (SessionError.Remote e.message) ∧
      (chat_streaming jp cbTrace (pre ++ Frame.message d :: rest) []).closed = true ∧
      (chat_streaming jp cbTrace (pre ++ Frame.message d :: rest) []).remaining = rest ∧
      (chat_streaming jp cbTrace (pre ++ Frame.message d :: rest) []).cbState
        = decodedEvents jp pre ++ [SseEvent.Error e] := by
  unfold chat_streaming
  rw [go_nonterminal_trace jp pre (Frame.message d :: rest) [] hpre]
  simp [chatStreamingGo, hd, cbTrace]

/-- C3 witness: scenario B — an error frame with message `rate limited`
after one progress frame. -/
theorem C3_error_stops_with_remote_failure_witness :
    (∀ f ∈ [Frame.message "pframe"],
      nonTerminalFrameB (fun s =>
        if s == "pframe" then some (envJson "progress" (progressJson "He"))
        else some (envJson "error" (Json.obj [("message", Json.str "rate limited")]))) f = true) ∧
      parse_sse_event (fun s =>
          if s == "pframe" then some (envJson "progress" (progressJson "He"))
          else some (envJson "error" (Json.obj [("message", Json.str "rate limited")]))) "eframe"
        = some (SseEvent.Error ⟨"rate limited"⟩) ∧
      (chat_streaming (fun s =>
          if s == "pframe" then some (envJson "progress" (progressJson "He"))
          else some (envJson "error" (Json.obj [("message", Json.str "rate limited")])))
          cbTrace ([Frame.message "pframe"] ++ Frame.message "eframe" :: []) []).result
        = Except.error (SessionError.Remote "rate limited") :=
  ⟨by decide, rfl,
    (C3_error_stops_with_remote_failure (fun s =>
        if s == "pframe" then some (envJson "progress" (progressJson "He"))
        else some (envJson "error" (Json.obj [("message", Json.str "rate limited")])))
      [Frame.message "pframe"] "eframe" ⟨"rate limited"⟩ [] (by decide) rfl).1⟩

/-- C10: a `Done` event whose content has no more bytes than the printed
cursor causes no further text emission, yet the driver still returns that
done content unchanged as the final result — the returned content comes
solely from the done payload, and so can be shorter than the total text
already delivered, as the closing concrete run shows (5 bytes delivered,
2-byte final content). -/
theorem C10_done_result_taken_solely_from_payload (jp : String → Option Json)
    (showTools : Bool) (d : String) (done : DoneEvent) (rest : List Frame)
    (p : Nat) (outAcc : List (List Nat)) (nAcc : List String)
    (hd : parse_sse_event jp d = some (SseEvent.Done done))
    (hle : (strBytes done.content).length ≤ p) :
    ((chat_streaming jp (sessionOnEvent showTools) (Frame.message d :: rest)
          ⟨p, outAcc, nAcc⟩).result = Except.ok (chatResponseOfDone done) ∧
      (chatResponseOfDone done).content = done.content ∧
      (chat_streaming jp (sessionOnEvent showTools) (Frame.message d :: rest)
          ⟨p, outAcc, nAcc⟩).cbState.stdoutChunks = outAcc ∧
      (chat_streaming jp (sessionOnEvent showTools) (Frame.message d :: rest)
          ⟨p, outAcc, nAcc⟩).closed = true ∧
      (chat_streaming jp (sessionOnEvent showTools) (Frame.message d :: rest)
          ⟨p, outAcc, nAcc⟩).remaining = rest) ∧
      (strBytes "Hi").length
        < (([SseEvent.Progress (progressUpdate "Hello"),
            SseEvent.Done ⟨"Hi", none, none, none⟩].foldl
              (sessionOnEvent false) ⟨0, [], []⟩).stdoutChunks.flatten).length := by
  have hnlt : ¬ p < (strBytes done.content).length := by omega
  refine ⟨⟨?_, rfl, ?_, ?_, ?_⟩, ?_⟩
  · simp [chat_streaming, chatStreamingGo, hd]
  · simp [chat_streaming, chatStreamingGo, hd, sessionOnEvent, hnlt]
  · simp [chat_streaming, chatStreamingGo, hd]
  · simp [chat_streaming, chatStreamingGo, hd]
  · decide

/-- C10 witness: printed cursor 5, done content `Hi` (2 bytes). -/
theorem C10_done_result_taken_solely_from_payload_witness :
    parse_sse_event (fun _ => some (envJson "done"
          (Json.obj [("content", Json.str "Hi")]))) "dframe"
        = some (SseEvent.Done ⟨"Hi", none, none, none⟩) ∧
      (strBytes "Hi").length ≤ 5 ∧
      (chat_streaming (fun _ => some (envJson "done"
            (Json.obj [("content", Json.str "Hi")])))
          (sessionOnEvent false) (Frame.message "dframe" :: []) ⟨5, [], []⟩).result
        = Except.ok (chatResponseOfDone ⟨"Hi", none, none, none⟩) :=
  ⟨rfl, by decide,
    (C10_done_result_taken_solely_from_payload (fun _ => some (envJson "done"
          (Json.obj [("content", Json.str "Hi")])))
      false "dframe" ⟨"Hi", none, none, none⟩ [] 5 [] []
      rfl (by decide)).1.1⟩

/-- C8 (counterexample): a well-formed done frame carrying the camelCase
names `conversationId` and `conversationHistory` decodes to a `Done`
event whose conversation id and history are `none` — the camelCase keys
are ignored as unknown fields, so the decoded values do not equal the
ones on the wire. -/
theorem C8_counterexample_camelCase_done_fields_dropped :
    parse_sse_event (fun _ => some camelDoneJson) "dframe"
        = some (SseEvent.Done ⟨"hi", none, none, none⟩) ∧
      (⟨"hi", none, none, none⟩ : DoneEvent).conversation_id ≠ some "c123" ∧
      (⟨"hi", none, none, none⟩ : DoneEvent).conversation_history
        ≠ some [⟨"user", "hello", none, none, none⟩] :=
  ⟨rfl, by simp, by simp⟩

/-- C8 (amended): the wire names for a done frame's conversation fields
are the snake_case `conversation_id` and `conversation_history` (the
source's `DoneEvent` carries no camelCase rename); decoding a well-formed
done frame with those names produces a `Done` event carrying those
values, and the driver propagates them into the returned final result. -/
theorem C8_amended_snake_case_done_fields_propagate :
    parse_sse_event (fun _ => some snakeDoneJson) "dframe"
        = some (SseEvent.Done ⟨"hi", some "c123",
            some [⟨"user", "hello", none, none, none⟩], none⟩) ∧
      (chat_streaming (fun _ => some snakeDoneJson) cbTrace
          [Frame.message "dframe"] []).result
        = Except.ok ⟨"hi", some "c123",
            some [⟨"user", "hello", none, none, none⟩], none⟩ :=
  ⟨rfl, rfl⟩

/-- The total `sessionOnEvent` agrees with the faithful panic-aware
`sessionOnEventP` wherever the latter does not panic. -/
theorem sessionOnEventP_agrees_with_total (showTools : Bool) (s : SessState)
    (ev : SseEvent) (s' : SessState)
    (h : sessionOnEventP showTools s ev = some s') :
    s' = sessionOnEvent showTools s ev := by
  cases ev with
  | Progress u =>
    cases hsc : u.streaming_content with
    | none =>
      simp [sessionOnEventP, hsc] at h
      simp [sessionOnEvent, hsc, ← h]
    | some sc =>
      by_cases hcond : (sc.is_streaming
          && decide (s.printed < (strBytes sc.text).length)) = true
      · by_cases hb : isCharBoundary sc.text s.printed = true
        · simp [sessionOnEventP, hsc, hcond, rustSliceFrom, hb] at h
          simp [sessionOnEvent, hsc, hcond, ← h]
        · simp [sessionOnEventP, hsc, hcond, rustSliceFrom, hb] at h
      · simp [sessionOnEventP, hsc, hcond] at h
        simp [sessionOnEvent, hsc, hcond, ← h]
  | Done d =>
    by_cases hlt : s.printed < (strBytes d.content).length
    · by_cases hb : isCharBoundary d.content s.printed = true
      · simp [sessionOnEventP, hlt, rustSliceFrom, hb] at h
        simp [sessionOnEvent, hlt, ← h]
      · simp [sessionOnEventP, hlt, rustSliceFrom, hb] at h
    · simp [sessionOnEventP, hlt] at h
      simp [sessionOnEvent, hlt, ← h]
  | Error e =>
    simp [sessionOnEventP] at h
    simp [sessionOnEvent, ← h]
  | Unknown raw =>
    simp [sessionOnEventP] at h
    simp [sessionOnEvent, ← h]

/-- C1 (counterexample): a streaming progress frame with text `é` (2
bytes, strictly longer than the cursor 1) arriving with the printed
cursor mid-character makes the program panic on the byte slice at
`main.rs:523` — it does not emit a suffix and the stream does not
continue, contrary to the claim, whose guard it satisfies. -/
theorem C1_counterexample_mid_char_cursor_panics :
    (progressUpdate "é").streaming_content = some ⟨"é", true⟩ ∧
      1 < (strBytes "é").length ∧
      isCharBoundary "é" 1 = false ∧
      sessionOnEventP false ⟨1, [], []⟩ (.Progress (progressUpdate "é")) = none :=
  ⟨rfl, by decide, by decide, rfl⟩

/-- C1 (amended): a `Progress` event whose streaming content is present
with `is_streaming` true, whose text has strictly more bytes than the
printed cursor, and whose text has a char boundary at the cursor (as
always holds when the text extends what was already printed) makes the
session emit exactly the byte suffix beyond `printed` and advance
`printed` to the new byte length; the driver continues the stream after
any non-panicking `Progress` step; and on the concrete frame pair with
texts `Hel` then `Hello` the sink receives `Hel` then `lo`. -/
theorem C1_amended_boundary_progress_emits_new_suffix :
    (∀ (showTools : Bool) (s : SessState) (u : AgentProgressUpdate) (sc : StreamingContent),
      u.streaming_content = some sc → sc.is_streaming = true →
      s.printed < (strBytes sc.text).length →
      isCharBoundary sc.text s.printed = true →
      sessionOnEventP showTools s (.Progress u)
        = some ⟨(strBytes sc.text).length,
            s.stdoutChunks ++ [(strBytes sc.text).drop s.printed],
            s.notices ++ stepNotices showTools u.steps⟩) ∧
    (∀ (σ : Type) (jp : String → Option Json) (onEvent : σ → SseEvent → Option σ)
        (d : String) (u : AgentProgressUpdate) (rest : List Frame)
        (fr : Option ChatResponse) (s s' : σ),
      parse_sse_event jp d = some (.Progress u) →
      onEvent s (.Progress u) = some s' →
      chatStreamingGoP jp onEvent (.message d :: rest) fr s
        = chatStreamingGoP jp onEvent rest fr s') ∧
    (sessionOnEventP false ⟨0, [], []⟩ (.Progress (progressUpdate "Hel"))
        = some ⟨3, [strBytes "Hel"], []⟩ ∧
      sessionOnEventP false ⟨3, [strBytes "Hel"], []⟩ (.Progress (progressUpdate "Hello"))
        = some ⟨5, [strBytes "Hel", strBytes "lo"], []⟩) := by
  refine ⟨?_, ?_, rfl, rfl⟩
  · intro showTools s u sc hsc hstr hlt hb
    simp [sessionOnEventP, hsc, hstr, hlt, rustSliceFrom, hb]
  · intro σ jp onEvent d u rest fr s s' hd hstep
    simp [chatStreamingGoP, hd, hstep]

/-- C1 witness: the amended general part applied at the first scenario
frame. -/
theorem C1_amended_boundary_progress_emits_new_suffix_witness :
    (progressUpdate "Hel").streaming_content = some ⟨"Hel", true⟩ ∧
      (⟨"Hel", true⟩ : StreamingContent).is_streaming = true ∧
      (0 : Nat) < (strBytes "Hel").length ∧
      isCharBoundary "Hel" 0 = true ∧
      sessionOnEventP false ⟨0, [], []⟩ (.Progress (progressUpdate "Hel"))
        = some ⟨(strBytes "Hel").length, [] ++ [(strBytes "Hel").drop 0],
            [] ++ stepNotices false (progressUpdate "Hel").steps⟩ :=
  ⟨rfl, rfl, by decide, by decide,
    C1_amended_boundary_progress_emits_new_suffix.1 false ⟨0, [], []⟩
      (progressUpdate "Hel") ⟨"Hel", true⟩ rfl rfl (by decide) (by decide)⟩

/-- C2 (counterexample): a done frame with content `é` (2 bytes) arriving
with the printed cursor at 1 — strictly inside the claim's `p < L` guard
but mid-character — makes the program panic on the byte slice at
`main.rs:533`: the driver returns nothing at all rather than emitting the
suffix and returning the final result. -/
theorem C2_counterexample_mid_char_done_panics :
    parse_sse_event (fun _ => some (envJson "done"
          (Json.obj [("content", Json.str "é")]))) "dframe"
        = some (SseEvent.Done ⟨"é", none, none, none⟩) ∧
      1 < (strBytes "é").length ∧
      isCharBoundary "é" 1 = false ∧
      chat_streamingP (fun _ => some (envJson "done"
            (Json.obj [("content", Json.str "é")])))
          (sessionOnEventP false) [Frame.message "dframe"] ⟨1, [], []⟩ = none :=
  ⟨rfl, by decide, by decide, rfl⟩

/-- C2 (amended): a `Done` event whose content has `L` bytes, arriving
with the printed cursor at `p < L` and `p` a char boundary of that
content (as always holds when the content extends what was already
printed), makes the session emit the remaining suffix of length `L - p`
exactly once, and the driver builds the final result from the done
payload (content equal to the done content), closes the frame source,
reads no further frames, and returns that result. -/
theorem C2_amended_done_flushes_remaining_suffix (jp : String → Option Json)
    (showTools : Bool) (d : String) (done : DoneEvent) (rest : List Frame)
    (p : Nat) (outAcc : List (List Nat)) (nAcc : List String)
    (hd : parse_sse_event jp d = some (SseEvent.Done done))
    (hlt : p < (strBytes done.content).length)
    (hb : isCharBoundary done.content p = true) :
    chat_streamingP jp (sessionOnEventP showTools) (Frame.message d :: rest)
          ⟨p, outAcc, nAcc⟩
        = some ⟨Except.ok (chatResponseOfDone done),
            ⟨p, outAcc ++ [(strBytes done.content).drop p], nAcc⟩, true, rest⟩ ∧
      (chatResponseOfDone done).content = done.content ∧
      ((strBytes done.content).drop p).length = (strBytes done.content).length - p := by
  refine ⟨?_, rfl, by simp⟩
  simp [chat_streamingP, chatStreamingGoP, hd, sessionOnEventP, hlt, rustSliceFrom, hb]

/-- C2 witness: scenario A's terminal frame — done content `Hello world`
arriving with 5 bytes already printed flushes ` world`. -/
theorem C2_amended_done_flushes_remaining_suffix_witness :
    parse_sse_event (fun _ => some (envJson "done"
          (Json.obj [("content", Json.str "Hello world")]))) "dframe"
        = some (SseEvent.Done ⟨"Hello world", none, none, none⟩) ∧
      (5 : Nat) < (strBytes "Hello world").length ∧
      isCharBoundary "Hello world" 5 = true ∧
      chat_streamingP (fun _ => some (envJson "done"
            (Json.obj [("content", Json.str "Hello world")])))
          (sessionOnEventP false) (Frame.message "dframe" :: []) ⟨5, [], []⟩
        = some ⟨Except.ok (chatResponseOfDone ⟨"Hello world", none, none, none⟩),
            ⟨5, [] ++ [(strBytes "Hello world").drop 5], []⟩, true, []⟩ :=
  ⟨rfl, by decide, by decide,
    (C2_amended_done_flushes_remaining_suffix (fun _ => some (envJson "done"
          (Json.obj [("content", Json.str "Hello world")])))
      false "dframe" ⟨"Hello world", none, none, none⟩ [] 5 [] []
      rfl (by decide) (by decide)).1⟩
